import Mathlib

/-!
Verification of the Ollama agent-loop core (codex-cli).

Shallow embedding of:
  - `src/codex-cli/src/utils/ollama-client.ts`
      (`formatOllamaModelName`, `extractOllamaModelName`, `isOllamaModel`,
       `convertResponseItemsToOllamaMessages`)
  - `src/codex-cli/src/utils/agent/ollama-agent-loop.ts`
      (`OllamaAgentLoop`: `run`, `cancel`, `terminate`,
       `clearConversationHistory`, `updateConversationHistory`,
       `handleFunctionCall`, `parseFunctionCalls`,
       `extractThinkingContent`, `convertOllamaResponseToResponseItem`)

JavaScript strings are modelled as `List Char`; the regular expressions of
the source are modelled as explicit left-to-right scanners with the
backtracking behaviour of the JS regex engine on the concrete patterns
involved (documented at each scanner).  Machine time and randomness
(`Date.now()`, `Math.random()`, `randomUUID`) only feed opaque item ids and
the reasoning duration; ids are omitted from the model and the fresh session
id is passed as an argument where the source draws a UUID.
-/

namespace Codex

/-- Whitespace test for the JS `\s` class and `String.prototype.trim`
(ASCII part: space, tab, newline, carriage return, vertical tab, form feed;
the Unicode space characters are irrelevant to the texts involved). -/
def jsIsSpace (c : Char) : Bool :=
  c == ' ' || c == '\t' || c == '\n' || c == '\r' || c == '\x0b' || c == '\x0c'

/-- Model of `String.prototype.startsWith`: first argument is the candidate
leading segment, second the string. -/
def jsStartsWith : List Char → List Char → Bool
  | [], _ => true
  | _ :: _, [] => false
  | a :: ps, b :: ss => a == b && jsStartsWith ps ss

/-- Model of `String.prototype.trim`: strip whitespace from both ends. -/
def jsTrim (s : List Char) : List Char :=
  ((s.dropWhile jsIsSpace).reverse.dropWhile jsIsSpace).reverse

/-- Model of `String.prototype.slice(start)` with a single (possibly
negative) argument, as used by `nonSystemMessages.slice(-MAX + sysLen)`:
a negative start counts back from the end, clamped at 0; a non-negative
start is clamped at the length. -/
def jsSliceStart {α : Type} (l : List α) (start : Int) : List α :=
  l.drop (if start < 0 then max ((l.length : Int) + start) 0 else
    min start (l.length : Int)).toNat

/-- Model of `String.prototype.split(" ")` (single-space separator), used by
`command.split(" ")`.  Mirrors JS: `"" ↦ [""]`, separators at either end
produce empty fields. -/
def splitSpaceAux : List Char → List Char → List String
  | [], acc => [String.mk acc.reverse]
  | ' ' :: t, acc => String.mk acc.reverse :: splitSpaceAux t []
  | c :: t, acc => splitSpaceAux t (c :: acc)

/-- Entry point of the `split(" ")` model. -/
def splitSpace (s : List Char) : List String :=
  splitSpaceAux s []

/-- Model of `.replace(/\\n/g, "\n")`: every two-character backslash-n
sequence becomes a newline, scanning left to right without overlap. -/
def replaceEscapedN : List Char → List Char
  | [] => []
  | '\\' :: 'n' :: t => '\n' :: replaceEscapedN t
  | c :: t => c :: replaceEscapedN t

/-- Strip a literal off the front of a string, or fail. -/
def stripLit (lit : List Char) (s : List Char) : Option (List Char) :=
  if jsStartsWith lit s then some (s.drop lit.length) else none

/-- Consume the maximal whitespace run (a greedy `\s*` that is followed by a
non-whitespace literal in the pattern, so no backtracking arises). -/
def skipWs (s : List Char) : List Char :=
  s.dropWhile jsIsSpace

/-- Match `\s*` followed by one literal character. -/
def stripCharAfterWs (c : Char) (s : List Char) : Option (List Char) :=
  match skipWs s with
  | [] => none
  | c' :: t => if c' == c then some t else none

/-- Match `\s*` followed by a literal string. -/
def stripLitAfterWs (lit : List Char) (s : List Char) : Option (List Char) :=
  stripLit lit (skipWs s)

/-- Find the first occurrence of a pattern in a string; return the segment
before the match and the remainder after it.  This is the semantics of a
lazy `([\s\S]*?)` followed by a literal. -/
def findSplit (pat : List Char) : List Char → Option (List Char × List Char)
  | [] => if pat.isEmpty then some ([], []) else none
  | c :: cs =>
    if jsStartsWith pat (c :: cs) then some ([], (c :: cs).drop pat.length)
    else
      match findSplit pat cs with
      | some (before, after) => some (c :: before, after)
      | none => none

/-! ### ollama-client.ts : model-name helpers (claim C10) -/

/-- Source `formatOllamaModelName` (ollama-client.ts:83-85):
returns `` `ollama:${modelName}` ``. -/
def formatOllamaModelName (modelName : List Char) : List Char :=
  "ollama:".data ++ modelName

/-- Source `extractOllamaModelName` (ollama-client.ts:93-99): `null` unless
the input starts with `"ollama:"`, else `substring(7)` drops the prefix. -/
def extractOllamaModelName (prefixedModelName : List Char) : Option (List Char) :=
  if !jsStartsWith "ollama:".data prefixedModelName then none
  else some (prefixedModelName.drop 7)

/-- Source `isOllamaModel` (ollama-client.ts:107-109). -/
def isOllamaModel (modelName : List Char) : Bool :=
  jsStartsWith "ollama:".data modelName

/-! ### Messages, response items and history (ollama-client.ts,
updateConversationHistory) -/

/-- Roles of `OllamaMessage` (ollama-client.ts:31-34). -/
inductive Role
  | user
  | assistant
  | system
deriving DecidableEq, Repr

/-- Source `OllamaMessage` (ollama-client.ts:31-34). -/
structure OllamaMessage where
  role : Role
  content : String
deriving DecidableEq, Repr

/-- Source `OllamaChatCompletionResponse` (ollama-client.ts:49-54). -/
structure OllamaChatCompletionResponse where
  model : String
  created_at : String
  message : OllamaMessage
  done : Bool
deriving DecidableEq, Repr

/-- Content parts of an OpenAI-style message item (the two kinds the
converter reads, plus a catch-all for parts it skips). -/
inductive ContentPart
  | inputText (text : String)
  | outputText (text : String)
  | otherPart
deriving DecidableEq, Repr

/-- OpenAI-style `ResponseItem`/`ResponseInputItem` as far as this loop
inspects them: message items, function-call outputs, and a catch-all for
item types both `convertResponseItemsToOllamaMessages` and the user-echo
loop skip. -/
inductive RItem
  | message (role : Role) (content : List ContentPart)
  | functionCallOutput (output : String)
  | other
deriving DecidableEq, Repr

/-- Concatenation of the `input_text`/`output_text` parts of a message item
(ollama-client.ts:122-128). -/
def collectText : List ContentPart → String
  | [] => ""
  | ContentPart.inputText t :: rest => t ++ collectText rest
  | ContentPart.outputText t :: rest => t ++ collectText rest
  | ContentPart.otherPart :: rest => collectText rest

/-- Source `convertResponseItemsToOllamaMessages` (ollama-client.ts:117-146):
message items with non-empty collected text keep their role; function-call
outputs become system messages (unconditionally); other items are skipped. -/
def convertResponseItemsToOllamaMessages : List RItem → List OllamaMessage
  | [] => []
  | RItem.message role parts :: rest =>
    let content := collectText parts
    if content == "" then convertResponseItemsToOllamaMessages rest
    else { role := role, content := content } :: convertResponseItemsToOllamaMessages rest
  | RItem.functionCallOutput out :: rest =>
    { role := Role.system, content := out } :: convertResponseItemsToOllamaMessages rest
  | RItem.other :: rest => convertResponseItemsToOllamaMessages rest

/-- `MAX_HISTORY_LENGTH` (ollama-agent-loop.ts:671). -/
def MAX_HISTORY_LENGTH : Nat := 20

/-- Role test used by the eviction filters (ollama-agent-loop.ts:674-675). -/
def isSystemMsg (m : OllamaMessage) : Bool :=
  m.role == Role.system

/-- Eviction pass of `updateConversationHistory`
(ollama-agent-loop.ts:671-682): when the history exceeds the cap, keep all
system-role messages, then `nonSystemMessages.slice(-MAX_HISTORY_LENGTH +
systemMessages.length)`, and reconstruct as system messages followed by the
retained recent messages. -/
def evictHistory (h : List OllamaMessage) : List OllamaMessage :=
  if h.length > MAX_HISTORY_LENGTH then
    h.filter isSystemMsg ++
      jsSliceStart (h.filter fun m => !isSystemMsg m)
        (((h.filter isSystemMsg).length : Int) - (MAX_HISTORY_LENGTH : Int))
  else h

/-- Source `updateConversationHistory` (ollama-agent-loop.ts:659-683): push
the new turn messages and the model's reply, then run the eviction pass. -/
def updateConversationHistory (h : List OllamaMessage) (newMessages : List OllamaMessage)
    (response : OllamaChatCompletionResponse) : List OllamaMessage :=
  evictHistory (h ++ newMessages ++ [response.message])

/-! ### Free-text tool-call scanning (`parseFunctionCalls`,
ollama-agent-loop.ts:417-456)

The source runs two global regexes over the response text, pushing all
shell-fence matches first and all apply-patch matches second.  Each regex is
modelled as a scanner that tries a match at every position from left to
right and, on success, resumes after the match (the semantics of
`RegExp.prototype.exec` with the `g` flag). -/

/-- Argument payload of a canonical tool call.  The source serialises these
as a JSON `arguments` string (`JSON.stringify({command: …})`,
`JSON.stringify({patch: …})`) that only the external
`parseToolCallArguments` ever reads back; the payload is therefore modelled
structurally.  `raw` is the unserialised `arguments` string of a
function-call item produced by `convertOllamaResponseToResponseItem`
(ollama-agent-loop.ts:390), which is the bare second regex group. -/
inductive FnArgs
  | shell (command : List String)
  | patch (patchText : String)
  | raw (s : String)
deriving DecidableEq, Repr

/-- Canonical tool call (`ResponseFunctionToolCall` as this loop builds it).
The `id`/`call_id` fields are fresh `Date.now()`/`Math.random()` strings in
the source and are omitted: no claim inspects them. -/
structure FunctionCall where
  name : String
  args : FnArgs
deriving DecidableEq, Repr

/-- Attempt of the shell-fence regex
`/```(?:bash|sh)\s*\n([\s\S]*?)\n```/` at one position.  After the fence tag
the greedy `\s*` with backtracking makes the explicit `\n` match a newline
of the following whitespace run, rightmost first; the lazy group then ends
at the first later occurrence of `"\n```"`.  Returns the captured group and
the remainder after the match. -/
def shellTryNewlines : List Nat → List Char → List Char → Option (List Char × List Char)
  | [], _, _ => none
  | i :: is, w, rest =>
    match findSplit "\n```".data (w.drop (i + 1) ++ rest) with
    | some (content, after) => some (content, after)
    | none => shellTryNewlines is w rest

/-- Indices of newline characters inside the whitespace run, rightmost
first (the backtracking order of the greedy `\s*`). -/
def newlinePositionsDesc (w : List Char) : List Nat :=
  ((List.range w.length).filter fun i => w.getD i ' ' == '\n').reverse

/-- Single-position attempt of the shell-fence regex (see
`shellTryNewlines`). -/
def tryShellAt (s : List Char) : Option (List Char × List Char) :=
  (stripLit "```".data s).bind fun t =>
  (match stripLit "bash".data t with
   | some u => some u
   | none => stripLit "sh".data t).bind fun afterTag =>
  let w := afterTag.takeWhile jsIsSpace
  let rest := afterTag.drop w.length
  shellTryNewlines (newlinePositionsDesc w) w rest

/-- Closing part `"\s*\]\s*\}\s*```" ` of the apply-patch regex, applied
after a candidate closing quote of the lazy group. -/
def patchClose (s : List Char) : Option (List Char) :=
  (stripCharAfterWs ']' s).bind fun t1 =>
  (stripCharAfterWs '}' t1).bind fun t2 =>
  stripLit "```".data (skipWs t2)

/-- Lazy group `([\s\S]*?)` of the apply-patch regex: take the shortest
content such that the next character is `"` and the closing pattern matches
after it; a quote whose tail fails to close is absorbed into the content
(lazy backtracking).  The accumulator holds the content read so far,
reversed. -/
def patchLazyContent : List Char → List Char → Option (List Char × List Char)
  | [], _ => none
  | '"' :: t, acc =>
    (match patchClose t with
     | some rest => some (acc.reverse, rest)
     | none => patchLazyContent t ('"' :: acc))
  | c :: t, acc => patchLazyContent t (c :: acc)

/-- Single-position attempt of the apply-patch regex
`/```json\s*\{\s*"cmd"\s*:\s*\[\s*"apply_patch"\s*,\s*"([\s\S]*?)"\s*\]\s*\}\s*```/`.
Every greedy `\s*` is followed by a non-whitespace literal, so it is a
maximal whitespace run. -/
def tryPatchAt (s : List Char) : Option (List Char × List Char) :=
  (stripLit "```json".data s).bind fun s1 =>
  (stripCharAfterWs '{' s1).bind fun s2 =>
  (stripLitAfterWs "\"cmd\"".data s2).bind fun s3 =>
  (stripCharAfterWs ':' s3).bind fun s4 =>
  (stripCharAfterWs '[' s4).bind fun s5 =>
  (stripLitAfterWs "\"apply_patch\"".data s5).bind fun s6 =>
  (stripCharAfterWs ',' s6).bind fun s7 =>
  (stripCharAfterWs '"' s7).bind fun s8 =>
  patchLazyContent s8 []

/-- Global scan (`while ((match = re.exec(text)) !== null)`): try the
single-position matcher at each index left to right; on a match, emit the
capture and resume right after the match.  The fuel argument is
instantiated with the text length, which bounds the number of scan steps
(every step advances by at least one character). -/
def scanAllF (tryAt : List Char → Option (List Char × List Char)) :
    Nat → List Char → List (List Char)
  | 0, _ => []
  | _, [] => []
  | fuel + 1, c :: cs =>
    match tryAt (c :: cs) with
    | some (content, rest) => content :: scanAllF tryAt fuel rest
    | none => scanAllF tryAt fuel cs

/-- Shell-fence half of `parseFunctionCalls`
(ollama-agent-loop.ts:421-436): every captured block is trimmed, empty
commands are skipped, and the call carries `name: "shell"` with
`{command: command.split(" ")}` as arguments. -/
def shellCallsOf (text : List Char) : List FunctionCall :=
  (scanAllF tryShellAt text.length text).filterMap fun raw =>
    if (jsTrim raw).isEmpty then none
    else some { name := "shell", args := FnArgs.shell (splitSpace (jsTrim raw)) }

/-- Apply-patch half of `parseFunctionCalls`
(ollama-agent-loop.ts:439-453): the captured block has its `\n` escapes
replaced, empty patches are skipped, and the call carries
`name: "apply_patch"` with `{patch: patchContent}` as arguments. -/
def applyPatchCallsOf (text : List Char) : List FunctionCall :=
  (scanAllF tryPatchAt text.length text).filterMap fun raw =>
    if (replaceEscapedN raw).isEmpty then none
    else some { name := "apply_patch", args := FnArgs.patch (String.mk (replaceEscapedN raw)) }

/-- Source `parseFunctionCalls` (ollama-agent-loop.ts:417-456): the shell
scan runs to completion first, then the apply-patch scan; the two result
lists are pushed into one array in that order. -/
def parseFunctionCalls (text : List Char) : List FunctionCall :=
  shellCallsOf text ++ applyPatchCallsOf text

/-! ### Response conversion (`extractThinkingContent`,
`convertOllamaResponseToResponseItem`, ollama-agent-loop.ts:310-409) -/

/-- Source `extractThinkingContent` (ollama-agent-loop.ts:310-336), the
regex `/<think>([\s\S]*?)<\/think>/` (first match): the leftmost full match
starts at the first `<think>` and the lazy group ends at the first
`</think>` after it (if the first `<think>` has no closing tag, no later
one has either).  On a match both the captured thinking content and the
remaining text (match removed) are trimmed; otherwise the content is
returned unchanged. -/
def extractThinkingContent (content : List Char) :
    Option (List Char) × List Char :=
  match findSplit "<think>".data content with
  | none => (none, content)
  | some (before, rest) =>
    match findSplit "</think>".data rest with
    | none => (none, content)
    | some (inner, after) => (some (jsTrim inner), jsTrim (before ++ after))

/-- Tail `\s*\]\s*\}\s*```" ` of the inline command regex of
`convertOllamaResponseToResponseItem` (ollama-agent-loop.ts:378). -/
def inlineTail (s : List Char) : Option Unit :=
  (stripCharAfterWs ']' s).bind fun t1 =>
  (stripCharAfterWs '}' t1).bind fun t2 =>
  (stripLit "```".data (skipWs t2)).map fun _ => ()

/-- Optional second element `(?:,\s*"([^"]+)")?` of the inline command
regex, followed by the closing tail.  The comma must follow the first
group's closing quote immediately; when the comma is absent the tail is
attempted directly (if the comma is present but the optional part fails,
the tail cannot match either, since it expects `]` where the comma
stands). -/
def inlineOptionalSecond (g1 : List Char) (after1 : List Char) :
    Option (List Char × Option (List Char)) :=
  match after1 with
  | ',' :: t1 =>
    (stripCharAfterWs '"' t1).bind fun t2 =>
    let g2 := t2.takeWhile fun c => c != '"'
    if g2.isEmpty then none
    else
      match t2.drop g2.length with
      | '"' :: after2 => (inlineTail after2).map fun _ => (g1, some g2)
      | _ => none
  | _ => (inlineTail after1).map fun _ => (g1, none)

/-- Single-position attempt of the inline command regex
`/```json\s*\{\s*"cmd"\s*:\s*\[\s*"([^"]+)"(?:,\s*"([^"]+)")?\s*\]\s*\}\s*```/`
(ollama-agent-loop.ts:378).  Each greedy `[^"]+` runs to the next quote and
must be non-empty. -/
def tryInlineCmdAt (s : List Char) : Option (List Char × Option (List Char)) :=
  (stripLit "```json".data s).bind fun s1 =>
  (stripCharAfterWs '{' s1).bind fun s2 =>
  (stripLitAfterWs "\"cmd\"".data s2).bind fun s3 =>
  (stripCharAfterWs ':' s3).bind fun s4 =>
  (stripCharAfterWs '[' s4).bind fun s5 =>
  (stripCharAfterWs '"' s5).bind fun s6 =>
  let g1 := s6.takeWhile fun c => c != '"'
  if g1.isEmpty then none
  else
    match s6.drop g1.length with
    | '"' :: after1 => inlineOptionalSecond g1 after1
    | _ => none

/-- First-match search (`String.prototype.match` without the `g` flag):
leftmost position where the single-position matcher succeeds.  Fuel is
instantiated with the text length. -/
def findFirstF (tryAt : List Char → Option (List Char × Option (List Char))) :
    Nat → List Char → Option (List Char × Option (List Char))
  | 0, _ => none
  | _, [] => none
  | fuel + 1, c :: cs =>
    match tryAt (c :: cs) with
    | some r => some r
    | none => findFirstF tryAt fuel cs

/-- Output payload of a `function_call_output` item.  The source stores
strings: `invalidArguments` stands for `` `invalid arguments:
${rawArguments}` `` (ollama-agent-loop.ts:265), `noFunctionFound` for
`"no function found"` (line 275), and `execResult` for
`JSON.stringify({output, metadata})` (line 294). -/
inductive FCOut
  | invalidArguments
  | noFunctionFound
  | execResult (output : String) (metadata : String)
deriving DecidableEq, Repr

/-- Output Items (`ResponseItem` union) as this loop emits them through
`onItem`.  `forwarded` is an externally produced input item passed to
`onItem` verbatim (the user echo of ollama-agent-loop.ts:492 and the exec
collaborator's additional items, line 571-573); `systemError` is the
system-role error message item built by the two error handlers
(ollama-agent-loop.ts:598-608, 616-626).  Item ids and the reasoning
`duration_ms` (wall-clock) are omitted. -/
inductive OItem
  | forwarded (item : RItem)
  | reasoning (text : String)
  | assistantMessage (text : String)
  | functionCall (call : FunctionCall)
  | functionCallOutput (out : FCOut)
  | systemError (text : String)
deriving DecidableEq, Repr

/-- Cleaned content of a response: the text with the first `<think>` block
removed (ollama-agent-loop.ts:356). -/
def cleanedOf (response : OllamaChatCompletionResponse) : List Char :=
  (extractThinkingContent response.message.content.data).2

/-- Reasoning prefix of the converted response: one reasoning item when a
`<think>` block was found, nothing otherwise (ollama-agent-loop.ts:362-375). -/
def thinkingPrefixItems (response : OllamaChatCompletionResponse) : List OItem :=
  match (extractThinkingContent response.message.content.data).1 with
  | some t => [OItem.reasoning (String.mk t)]
  | none => []

/-- Source `convertOllamaResponseToResponseItem`
(ollama-agent-loop.ts:345-409): extract thinking content into a reasoning
item; then, if the cleaned content matches the inline command regex, the
single main item is a function call whose name is the first group and whose
raw `arguments` string is the second group or `""`; otherwise the main item
is an assistant message carrying the cleaned content. -/
def convertOllamaResponseToResponseItem (response : OllamaChatCompletionResponse) :
    List OItem :=
  match findFirstF tryInlineCmdAt (cleanedOf response).length (cleanedOf response) with
  | some (g1, g2) =>
    thinkingPrefixItems response ++ [OItem.functionCall
      { name := String.mk g1, args := FnArgs.raw (String.mk (g2.getD [])) }]
  | none =>
    thinkingPrefixItems response ++
      [OItem.assistantMessage (String.mk (cleanedOf response))]

/-! ### Instance state and lifecycle (`cancel`, `terminate`,
`clearConversationHistory`, the entry section of `run`) -/

/-- Instance fields of `OllamaAgentLoop` (ollama-agent-loop.ts:67-102,161).
`execCtrl` is the identity of the current `execAbortController`
(`none` = null); `ctrlCounter` supplies fresh controller identities (the
source allocates fresh `AbortController` objects); `hardAborted` is
`hardAbort.signal.aborted`; `currentStream` records whether a stream
reference is held.  The callbacks and config are not state. -/
structure LoopState where
  model : String
  instructions : Option String
  ollamaApiUrl : String
  conversationHistory : List OllamaMessage
  currentStream : Bool
  generation : Nat
  execCtrl : Option Nat
  ctrlCounter : Nat
  canceled : Bool
  terminated : Bool
  hardAborted : Bool
  sessionId : String
deriving DecidableEq, Repr

/-- Externally observable side effects: `onItem`, `onLoading`,
`onLastResponseId` callback invocations and `AbortController.abort()` calls
on an exec controller (identified by its `LoopState.execCtrl` number).  The
response-correlation id payload of `onLastResponseId` is a fresh
time/random string in the source and is omitted. -/
inductive Event
  | item (it : OItem)
  | loading (b : Bool)
  | lastResponseId
  | execAbort (ctrl : Nat)
deriving DecidableEq, Repr

/-- Source `cancel` (ollama-agent-loop.ts:109-143): no-op once terminated;
otherwise drop the stream reference, set the canceled flag, abort the
in-flight exec controller (if any), replace it with a fresh one, force
loading false, and bump the generation. -/
def cancel (s : LoopState) : LoopState × List Event :=
  if s.terminated then (s, [])
  else
    ({ s with
        currentStream := false
        canceled := true
        execCtrl := some s.ctrlCounter
        ctrlCounter := s.ctrlCounter + 1
        generation := s.generation + 1 },
      (match s.execCtrl with
       | some i => [Event.execAbort i]
       | none => []) ++ [Event.loading false])

/-- Source `terminate` (ollama-agent-loop.ts:150-159): no-op once
terminated; otherwise set the terminated flag, fire the master abort (whose
once-listener, ollama-agent-loop.ts:202-206, aborts the current exec
controller), then call `cancel()` — which observes the already-set
terminated flag. -/
def terminate (s : LoopState) : LoopState × List Event :=
  if s.terminated then (s, [])
  else
    let s1 : LoopState := { s with terminated := true }
    let listenerEvents : List Event :=
      match s1.execCtrl with
      | some i => [Event.execAbort i]
      | none => []
    let s2 : LoopState := { s1 with hardAborted := true }
    let c := cancel s2
    (c.1, listenerEvents ++ c.2)

/-- Source `clearConversationHistory` (ollama-agent-loop.ts:643-657): empty
the history, reset the generation counter to 0 and install a fresh session
id (a `randomUUID` draw in the source, passed here as an argument). -/
def clearConversationHistory (s : LoopState) (newSessionId : String) : LoopState :=
  { s with
      conversationHistory := []
      generation := 0
      sessionId := newSessionId }

/-- Entry section of `run` (ollama-agent-loop.ts:466-485): bump the
generation and capture the post-increment value as `thisGeneration`, reset
the cancellation flag and the stream reference, and create a fresh
`execAbortController`.  Returns the new state and the captured generation.
(The source never reads `thisGeneration` again after this point.) -/
def runEntry (s : LoopState) : LoopState × Nat :=
  ({ s with
      generation := s.generation + 1
      canceled := false
      currentStream := false
      execCtrl := some s.ctrlCounter
      ctrlCounter := s.ctrlCounter + 1 },
    s.generation + 1)

/-! ### Execution dispatch (`handleFunctionCall`,
ollama-agent-loop.ts:209-302) -/

/-- Result triple of the external `handleExecCommand` collaborator
(imported from `handle-exec-command.js`, outside this repository slice):
output text, metadata, and optional follow-up input items
(`ResponseInputItem[]`). -/
structure ExecOutcome where
  outputText : String
  metadata : String
  additionalItems : List RItem
deriving DecidableEq, Repr

/-- Source `handleFunctionCall` (ollama-agent-loop.ts:209-302) on a call
this loop itself constructed (already in the `/responses` shape, so the
chat-style normalisation of lines 227-250 is the identity).  `canceled` is
the instance flag read at line 217.  `parseOk` abstracts the external
`parseToolCallArguments` (from `parsers.js`, outside this slice): `false`
means it returned null.  `execOutcome` is the awaited result of the
external `handleExecCommand`, `Except.error` modelling a thrown rejection.
Only the names `"container.exec"` and `"shell"` are dispatched to exec;
every other name — `"apply_patch"` included — falls through to the
prepared `"no function found"` output item. -/
def handleFunctionCall (canceled : Bool) (call : FunctionCall)
    (parseOk : FnArgs → Bool) (execOutcome : Except String ExecOutcome) :
    Except String (List OItem) :=
  if canceled then Except.ok []
  else if !parseOk call.args then
    Except.ok [OItem.functionCallOutput FCOut.invalidArguments]
  else if call.name == "container.exec" || call.name == "shell" then
    match execOutcome with
    | Except.error e => Except.error e
    | Except.ok r =>
      Except.ok (OItem.functionCallOutput (FCOut.execResult r.outputText r.metadata)
        :: r.additionalItems.map OItem.forwarded)
  else
    Except.ok [OItem.functionCallOutput FCOut.noFunctionFound]

/-! ### The `run` turn (ollama-agent-loop.ts:458-628)

`run` is one asynchronous task; `cancel`/`terminate` may fire while it is
suspended at an await.  A `Sched` supplies what each await resolves to and
the values of the instance flags `this.canceled` and
`this.hardAbort.signal.aborted` at every point where `run` re-reads them
(checkpoints are numbered; index 0 is the post-backend check of line 519,
a call loop iteration `k ≥ 1` reads indices `2k` at line 559 and `2k+1`
inside `handleFunctionCall`).  The model returns the full ordered event
trace and the outcome the caller observes.  The entry mutations of the
instance state are `runEntry` above; `updateConversationHistory` (line
588) is the history function above and mutates no events. -/

/-- Environment of one `run` invocation: the backend response (or thrown
backend error), the flag values at each checkpoint, the external argument
parser, and the exec collaborator outcome for each dispatched call. -/
structure Sched where
  backend : Except String OllamaChatCompletionResponse
  flags : Nat → Bool × Bool
  parseOk : FnArgs → Bool
  execOut : Nat → Except String ExecOutcome

/-- How the tool-dispatch section of `run` ended: normally, by the early
return of a cancellation checkpoint (line 560-561), or by an exception
propagating to the inner catch. -/
inductive DispatchOut
  | completed
  | early
  | threw (msg : String)
deriving DecidableEq, Repr

/-- The `for (const functionCall of functionCalls)` loop
(ollama-agent-loop.ts:558-574): per call, checkpoint `canceled ||
hardAborted` (emit loading false and return early if set), emit the
function-call item, await `handleFunctionCall`, emit each returned item. -/
def processCalls (sched : Sched) : List FunctionCall → Nat → List Event × DispatchOut
  | [], _ => ([], DispatchOut.completed)
  | c :: cs, k =>
    if (sched.flags (2 * k)).1 || (sched.flags (2 * k)).2 then
      ([Event.loading false], DispatchOut.early)
    else
      match handleFunctionCall (sched.flags (2 * k + 1)).1 c sched.parseOk (sched.execOut k) with
      | Except.error e => ([Event.item (OItem.functionCall c)], DispatchOut.threw e)
      | Except.ok outs =>
        (Event.item (OItem.functionCall c) ::
          (outs.map Event.item ++ (processCalls sched cs (k + 1)).1),
         (processCalls sched cs (k + 1)).2)

/-- Dispatch on the main response item (ollama-agent-loop.ts:536-585): if
the last response item is a message with non-empty text, scan it with
`parseFunctionCalls` and run the call loop; if it is a function call
(produced by the converter's inline regex), await `handleFunctionCall` on
it directly — without a cancellation checkpoint and without re-emitting the
call item. -/
def mainDispatch (sched : Sched) (items : List OItem) : List Event × DispatchOut :=
  match items.getLast? with
  | some (OItem.assistantMessage text) =>
    if text == "" then ([], DispatchOut.completed)
    else processCalls sched (parseFunctionCalls text.data) 1
  | some (OItem.functionCall c) =>
    (match handleFunctionCall (sched.flags 1).1 c sched.parseOk (sched.execOut 0) with
     | Except.error e => ([], DispatchOut.threw e)
     | Except.ok outs => (outs.map Event.item, DispatchOut.completed))
  | _ => ([], DispatchOut.completed)

/-- Message text of the inner catch handler (ollama-agent-loop.ts:605). -/
def contactErrorText (e : String) : String :=
  "⚠️  Error while contacting Ollama: " ++ e

/-- Body of the inner `try`/`catch` (ollama-agent-loop.ts:515-608), without
the `finally`: await the backend; on a thrown backend (or dispatch) error
the catch emits one system error item; on `canceled || hardAborted` at line
519 emit loading false and return; otherwise emit the converted response
items, dispatch, and on normal completion fire `onLastResponseId`. -/
def innerTryBody (sched : Sched) : List Event :=
  match sched.backend with
  | Except.error e => [Event.item (OItem.systemError (contactErrorText e))]
  | Except.ok resp =>
    if (sched.flags 0).1 || (sched.flags 0).2 then [Event.loading false]
    else
      match (mainDispatch sched (convertOllamaResponseToResponseItem resp)).2 with
      | DispatchOut.threw e =>
        (convertOllamaResponseToResponseItem resp).map Event.item ++
          (mainDispatch sched (convertOllamaResponseToResponseItem resp)).1 ++
          [Event.item (OItem.systemError (contactErrorText e))]
      | DispatchOut.early =>
        (convertOllamaResponseToResponseItem resp).map Event.item ++
          (mainDispatch sched (convertOllamaResponseToResponseItem resp)).1
      | DispatchOut.completed =>
        (convertOllamaResponseToResponseItem resp).map Event.item ++
          (mainDispatch sched (convertOllamaResponseToResponseItem resp)).1 ++
          [Event.lastResponseId]

/-- Test of the user-echo loop (ollama-agent-loop.ts:490-494): only message
items with role user are echoed. -/
def isUserMessage : RItem → Bool
  | RItem.message Role.user _ => true
  | _ => false

/-- Body of the outer `try` (ollama-agent-loop.ts:462-611): the terminated
check throws (`Except.error`); otherwise echo the user input items, toggle
loading on, run the inner try with its uniform `finally { onLoading(false) }`,
and resolve. -/
def runOuterBody (s : LoopState) (input : List RItem) (sched : Sched) :
    Except String (List Event) :=
  if s.terminated then Except.error "OllamaAgentLoop has been terminated"
  else
    Except.ok ((input.filter isUserMessage).map (fun i => Event.item (OItem.forwarded i))
      ++ [Event.loading true] ++ innerTryBody sched ++ [Event.loading false])

/-- What one `run` invocation produces: the ordered event trace and the
outcome the caller's promise observes. -/
structure RunOut where
  events : List Event
  result : Except String Unit
deriving Repr

/-- Source `run` (ollama-agent-loop.ts:458-628): the outer body wrapped in
the outer catch (lines 612-627), which absorbs any error — the internally
thrown termination error included — into a loading-false toggle plus a
single system error item, and resolves. -/
def run (s : LoopState) (input : List RItem) (sched : Sched) : RunOut :=
  match runOuterBody s input sched with
  | Except.ok events => { events := events, result := Except.ok () }
  | Except.error e =>
    { events := [Event.loading false,
        Event.item (OItem.systemError ("⚠️  Unhandled error: " ++ e))],
      result := Except.ok () }

/-! ## Helper lemmas -/

/-- A string always starts with itself followed by anything. -/
theorem jsStartsWith_append (p m : List Char) : jsStartsWith p (p ++ m) = true := by
  induction p with
  | nil => rfl
  | cons a ps ih => simp [jsStartsWith, ih]

/-- The two halves of a filter partition account for the whole length. -/
theorem length_filter_partition {α : Type} (p : α → Bool) (l : List α) :
    (l.filter p).length + (l.filter fun a => !p a).length = l.length := by
  induction l with
  | nil => rfl
  | cons a t ih =>
    by_cases h : p a = true <;> simp [List.filter, h] <;> omega

/-! ## Claims -/

/-- C10.  Round-trip of the Ollama model-name helpers: extracting after
formatting returns the original name, and extraction yields `null` exactly
when `isOllamaModel` is false, i.e. exactly when the string does not start
with the `"ollama:"` prefix. -/
theorem extract_format_roundtrip_and_null :
    (∀ m : List Char, extractOllamaModelName (formatOllamaModelName m) = some m) ∧
    (∀ s : List Char, extractOllamaModelName s = none ↔ isOllamaModel s = false) := by
  constructor
  · intro m
    unfold extractOllamaModelName formatOllamaModelName
    rw [jsStartsWith_append]
    have h7 : ("ollama:".data).length = 7 := rfl
    simp only [Bool.not_true, Bool.false_eq_true, if_false, ← h7, List.drop_left]
  · intro s
    unfold extractOllamaModelName isOllamaModel
    cases h : jsStartsWith "ollama:".data s <;> simp [h]

/-- C9.  `clearConversationHistory` empties the history, resets the
generation counter to 0 and installs the freshly drawn session id, and
leaves every other instance field — the terminated and canceled flags in
particular — unchanged. -/
theorem clearConversationHistory_resets_and_frames :
    ∀ (s : LoopState) (newSessionId : String),
      (clearConversationHistory s newSessionId).conversationHistory = [] ∧
      (clearConversationHistory s newSessionId).generation = 0 ∧
      (clearConversationHistory s newSessionId).sessionId = newSessionId ∧
      (clearConversationHistory s newSessionId).terminated = s.terminated ∧
      (clearConversationHistory s newSessionId).canceled = s.canceled ∧
      (clearConversationHistory s newSessionId).model = s.model ∧
      (clearConversationHistory s newSessionId).instructions = s.instructions ∧
      (clearConversationHistory s newSessionId).ollamaApiUrl = s.ollamaApiUrl ∧
      (clearConversationHistory s newSessionId).currentStream = s.currentStream ∧
      (clearConversationHistory s newSessionId).execCtrl = s.execCtrl ∧
      (clearConversationHistory s newSessionId).ctrlCounter = s.ctrlCounter ∧
      (clearConversationHistory s newSessionId).hardAborted = s.hardAborted := by
  intro s newSessionId
  exact ⟨rfl, rfl, rfl, rfl, rfl, rfl, rfl, rfl, rfl, rfl, rfl, rfl⟩

/-- C8.  Scenario D: on a history of 25 non-system messages and one system
message (cap 20), the eviction pass keeps the system message and exactly
the 19 most recent non-system messages — the filtered partitions with the
oldest 6 non-system messages dropped — reconstructed as system messages
first, relative order preserved within each partition, for a total length
of exactly the cap. -/
theorem evictHistory_scenarioD :
    ∀ h : List OllamaMessage,
      (h.filter isSystemMsg).length = 1 →
      (h.filter fun m => !isSystemMsg m).length = 25 →
      evictHistory h =
        h.filter isSystemMsg ++ (h.filter fun m => !isSystemMsg m).drop 6 ∧
      (evictHistory h).length = MAX_HISTORY_LENGTH := by
  intro h h1 h2
  have hpart := length_filter_partition isSystemMsg h
  have hlen : h.length = 26 := by omega
  have hgt : h.length > MAX_HISTORY_LENGTH := by
    rw [hlen]; norm_num [MAX_HISTORY_LENGTH]
  have hev : evictHistory h =
      h.filter isSystemMsg ++ (h.filter fun m => !isSystemMsg m).drop 6 := by
    unfold evictHistory
    rw [if_pos hgt]
    congr 1
    unfold jsSliceStart
    rw [h1, h2]
    norm_num [MAX_HISTORY_LENGTH]
    rfl
  refine ⟨hev, ?_⟩
  rw [hev]
  simp [List.length_append, List.length_drop, h1, h2, MAX_HISTORY_LENGTH]

/-- Concrete history for the Scenario D witness: 25 user messages followed
by one system message. -/
def scenarioDHistory : List OllamaMessage :=
  List.replicate 25 { role := Role.user, content := "u" } ++
    [{ role := Role.system, content := "instructions" }]

/-- Witness for C8 at a concrete 26-message history. -/
theorem evictHistory_scenarioD_witness :
    evictHistory scenarioDHistory =
      scenarioDHistory.filter isSystemMsg ++
        (scenarioDHistory.filter fun m => !isSystemMsg m).drop 6 ∧
    (evictHistory scenarioDHistory).length = MAX_HISTORY_LENGTH :=
  evictHistory_scenarioD scenarioDHistory (by decide) (by decide)

/-- Turn input for the C3 counterexample: 21 function-call outputs, which
`convertResponseItemsToOllamaMessages` turns into 21 system-role
messages. -/
def manyToolOutputsInput : List RItem :=
  List.replicate 21 (RItem.functionCallOutput "tool output")

/-- Backend reply used by the C3 counterexample and witness. -/
def plainResponse : OllamaChatCompletionResponse :=
  { model := "llama3", created_at := "2024-01-01T00:00:00Z",
    message := { role := Role.assistant, content := "done" }, done := true }

/-- C3 counterexample.  One completed turn whose input converts to 21
system-role messages leaves the history at 21 messages — above the
configured cap of 20: the eviction pass never drops system-role messages,
so the cap is not enforced once the system messages alone reach it. -/
theorem history_cap_counterexample :
    (updateConversationHistory []
        (convertResponseItemsToOllamaMessages manyToolOutputsInput)
        plainResponse).length = 21 ∧
    MAX_HISTORY_LENGTH = 20 := by
  exact ⟨by decide, rfl⟩

/-- C3 as amended.  After a completed turn, the history respects the cap
provided the post-push history holds fewer system-role messages than the
cap; and — unconditionally — every system-role message present before the
eviction pass is still present after it. -/
theorem history_cap_amended :
    ∀ (h newMessages : List OllamaMessage) (response : OllamaChatCompletionResponse),
      (((h ++ newMessages ++ [response.message]).filter isSystemMsg).length <
          MAX_HISTORY_LENGTH →
        (updateConversationHistory h newMessages response).length ≤ MAX_HISTORY_LENGTH) ∧
      (∀ m ∈ h ++ newMessages ++ [response.message], isSystemMsg m = true →
        m ∈ updateConversationHistory h newMessages response) := by
  intro h newMessages response
  constructor
  · intro hs
    unfold updateConversationHistory evictHistory
    by_cases hc : (h ++ newMessages ++ [response.message]).length > MAX_HISTORY_LENGTH
    · rw [if_pos hc]
      have hpart := length_filter_partition isSystemMsg
        (h ++ newMessages ++ [response.message])
      rw [List.length_append]
      unfold jsSliceStart
      rw [List.length_drop]
      have hcond : (((h ++ newMessages ++ [response.message]).filter
          isSystemMsg).length : Int) - (MAX_HISTORY_LENGTH : Int) < 0 := by
        simp only [MAX_HISTORY_LENGTH] at hs ⊢
        omega
      rw [if_pos hcond]
      rcases le_or_lt 0
          ((((h ++ newMessages ++ [response.message]).filter
              fun m => !isSystemMsg m).length : Int) +
            ((((h ++ newMessages ++ [response.message]).filter
              isSystemMsg).length : Int) - (MAX_HISTORY_LENGTH : Int)))
          with hge | hlt
      · rw [max_eq_left hge]
        simp only [MAX_HISTORY_LENGTH] at *
        omega
      · rw [max_eq_right (le_of_lt hlt)]
        simp only [MAX_HISTORY_LENGTH] at *
        omega
    · rw [if_neg hc]
      simp only [MAX_HISTORY_LENGTH] at *
      omega
  · intro m hm hsys
    unfold updateConversationHistory evictHistory
    by_cases hc : (h ++ newMessages ++ [response.message]).length > MAX_HISTORY_LENGTH
    · rw [if_pos hc]
      exact List.mem_append_left _ (List.mem_filter.mpr ⟨hm, hsys⟩)
    · rw [if_neg hc]
      exact hm

/-- Witness for C3 as amended, at a concrete turn. -/
theorem history_cap_amended_witness :
    (updateConversationHistory [] [] plainResponse).length ≤ MAX_HISTORY_LENGTH :=
  (history_cap_amended [] [] plainResponse).1 (by decide)

/-- A freshly constructed `OllamaAgentLoop` instance: no stream, generation
0, no exec controller yet (`execAbortController` is initialised to null),
flags clear (ollama-agent-loop.ts:90-102, 163-207). -/
def loop0 : LoopState :=
  { model := "ollama:llama3"
    instructions := none
    ollamaApiUrl := "http://localhost:11434"
    conversationHistory := []
    currentStream := false
    generation := 0
    execCtrl := none
    ctrlCounter := 0
    canceled := false
    terminated := false
    hardAborted := false
    sessionId := "session0" }

/-- C4.  Evaluation of `terminate` on an instance with a run in flight: the
master abort fires (the once-listener aborts the in-flight exec controller,
id 0), but — because the terminated flag is set before `this.cancel()` is
invoked and `cancel` returns immediately once terminated — none of
`cancel`'s effects happen: the canceled flag stays false, the generation is
not incremented, the exec controller is aborted but not replaced, and no
loading-false toggle is emitted.  A repeated `terminate` is a no-op. -/
theorem terminate_skips_cancel_effects :
    (terminate (runEntry loop0).1).1.terminated = true ∧
    (terminate (runEntry loop0).1).1.hardAborted = true ∧
    (terminate (runEntry loop0).1).2 = [Event.execAbort 0] ∧
    (terminate (runEntry loop0).1).1.canceled = false ∧
    (terminate (runEntry loop0).1).1.generation = (runEntry loop0).1.generation ∧
    (terminate (runEntry loop0).1).1.execCtrl = (runEntry loop0).1.execCtrl ∧
    (terminate (runEntry loop0).1).1.ctrlCounter = (runEntry loop0).1.ctrlCounter ∧
    Event.loading false ∉ (terminate (runEntry loop0).1).2 ∧
    terminate (terminate (runEntry loop0).1).1 = ((terminate (runEntry loop0).1).1, []) := by
  decide

/-- Free-text for the C5 demonstration: a single apply-patch command block,
as the free-text scanner expects it. -/
def patchOnlyText : String :=
  "```json\n\x7b\"cmd\":[\"apply_patch\",\"*** Begin Patch\\nabc\"]\x7d\n```"

/-- The canonical tool call the free-text scanner produces from
`patchOnlyText`. -/
def scannedPatchCall : FunctionCall :=
  { name := "apply_patch", args := FnArgs.patch "*** Begin Patch\nabc" }

/-- C5.  The free-text scanner produces an `apply_patch` tool call from a
patch command block, but the dispatcher recognises only `"container.exec"`
and `"shell"`: for every behaviour of the external argument parser and the
exec collaborator, a non-canceled `apply_patch` call is answered with the
`"no function found"` result reserved for unrecognised tool names (or the
`"invalid arguments"` result when parsing fails) — never by deferring to
the patch-apply collaborator. -/
theorem apply_patch_gets_no_function_found :
    parseFunctionCalls patchOnlyText.data = [scannedPatchCall] ∧
    ∀ (parseOk : FnArgs → Bool) (execOutcome : Except String ExecOutcome),
      handleFunctionCall false scannedPatchCall parseOk execOutcome =
        Except.ok [OItem.functionCallOutput
          (if parseOk scannedPatchCall.args then FCOut.noFunctionFound
           else FCOut.invalidArguments)] := by
  constructor
  · rfl
  · intro parseOk execOutcome
    unfold handleFunctionCall scannedPatchCall
    cases h : parseOk (FnArgs.patch "*** Begin Patch\nabc") <;> simp [h]

/-- Inert schedule for runs that stop before using the backend. -/
def trivialSched : Sched :=
  { backend := Except.error "fetch failed"
    flags := fun _ => (false, false)
    parseOk := fun _ => true
    execOut := fun _ => Except.error "unused" }

/-- C2.  `run` after `terminate` does not reject to the caller: the
termination check does throw internally (`runOuterBody` errors with the
termination message), but the outer catch of `run` swallows it — the call
resolves normally and the failure is surfaced only as a system error
Output Item, with a loading-false toggle.  The same happens when a
`cancel` preceded the `terminate`. -/
theorem run_after_terminate_resolves :
    (terminate loop0).1.terminated = true ∧
    runOuterBody (terminate loop0).1 [] trivialSched =
      Except.error "OllamaAgentLoop has been terminated" ∧
    (run (terminate loop0).1 [] trivialSched).result = Except.ok () ∧
    (run (terminate loop0).1 [] trivialSched).events =
      [Event.loading false,
       Event.item (OItem.systemError
         "⚠️  Unhandled error: OllamaAgentLoop has been terminated")] ∧
    (run (terminate (cancel loop0).1).1 [] trivialSched).result = Except.ok () := by
  exact ⟨rfl, rfl, rfl, rfl, rfl⟩

/-- State of the instance after: run A starts (generation 1), the user
cancels (generation 2), run B starts (generation 3, canceled flag reset to
false). -/
def staleState : LoopState :=
  (runEntry (cancel (runEntry loop0).1).1).1

/-- Schedule seen by run A when its backend response arrives after the
cancel and the new run: the checkpoints read the instance flags as they
are at that moment. -/
def staleSched : Sched :=
  { backend := Except.ok
      { model := "llama3", created_at := "2024-01-01T00:00:00Z",
        message := { role := Role.assistant, content := "hello" }, done := true }
    flags := fun _ => (staleState.canceled, staleState.hardAborted)
    parseOk := fun _ => true
    execOut := fun _ => Except.error "unused" }

/-- C1.  A stale run emits Output Items from an old generation: run A
captures generation 1; a `cancel` and a new run B bring the instance's
current generation to 3 with the canceled flag reset to false; when A's
backend completion then arrives, the only guards `run` consults
(`this.canceled || this.hardAbort.signal.aborted`, ollama-agent-loop.ts:519)
are clear — the captured `thisGeneration` is never compared — so run A
proceeds to deliver its assistant Output Item even though its generation
(1) is older than the current generation (3). -/
theorem stale_generation_emission :
    (runEntry loop0).2 = 1 ∧
    staleState.generation = 3 ∧
    (staleState.canceled || staleState.hardAborted) = false ∧
    (run loop0 [RItem.message Role.user [ContentPart.inputText "hi"]] staleSched).events =
      [Event.item (OItem.forwarded (RItem.message Role.user [ContentPart.inputText "hi"])),
       Event.loading true,
       Event.item (OItem.assistantMessage "hello"),
       Event.lastResponseId,
       Event.loading false] := by
  exact ⟨rfl, rfl, rfl, rfl⟩

/-- Response text with an apply-patch command block first and a shell
fence after it. -/
def mixedOrderText : String :=
  "```json\n\x7b\"cmd\": [\"apply_patch\", \"P\"]\x7d\n```\nthen run\n```bash\nls -la\n```"

/-- C6 counterexample.  On a response whose apply-patch block appears
before its shell fence, the parsed — and hence dispatched — order is the
shell call first and the patch call second, not the order in which the
blocks appear in the text. -/
theorem parse_order_counterexample :
    mixedOrderText =
      "```json\n\x7b\"cmd\": [\"apply_patch\", \"P\"]\x7d\n```\nthen run\n" ++
        "```bash\nls -la\n```" ∧
    parseFunctionCalls mixedOrderText.data =
      [{ name := "shell", args := FnArgs.shell ["ls", "-la"] },
       { name := "apply_patch", args := FnArgs.patch "P" }] := by
  exact ⟨rfl, rfl⟩

/-- C6 as amended.  Parsed tool calls are dispatched grouped by kind: every
shell-fence call (in text order among themselves) precedes every
apply-patch call (in text order among themselves); text order is preserved
only within each kind. -/
theorem parse_order_grouped_by_kind :
    ∀ text : List Char,
      parseFunctionCalls text = shellCallsOf text ++ applyPatchCallsOf text ∧
      (∀ c ∈ shellCallsOf text, c.name = "shell") ∧
      (∀ c ∈ applyPatchCallsOf text, c.name = "apply_patch") := by
  intro text
  refine ⟨rfl, ?_, ?_⟩
  · intro c hc
    unfold shellCallsOf at hc
    rw [List.mem_filterMap] at hc
    obtain ⟨raw, _, hf⟩ := hc
    split at hf
    · exact absurd hf (by simp)
    · cases hf
      rfl
  · intro c hc
    unfold applyPatchCallsOf at hc
    rw [List.mem_filterMap] at hc
    obtain ⟨raw, _, hf⟩ := hc
    split at hf
    · exact absurd hf (by simp)
    · cases hf
      rfl

/-! ### Event accounting for C7 -/

/-- Test for a loop-built system error Output Item event. -/
def isSystemErrorEvent : Event → Bool
  | Event.item (OItem.systemError _) => true
  | _ => false

/-- Number of error Output Items in a trace. -/
def countSystemErrors (evs : List Event) : Nat :=
  (evs.filter isSystemErrorEvent).length

/-- Loading-toggle values of a trace, in order. -/
def loadingsOf (evs : List Event) : List Bool :=
  evs.filterMap fun e =>
    match e with
    | Event.loading b => some b
    | _ => none

/-- Test for an error Output Item. -/
def isErrOItem : OItem → Bool
  | OItem.systemError _ => true
  | _ => false

theorem countSystemErrors_append (a b : List Event) :
    countSystemErrors (a ++ b) = countSystemErrors a + countSystemErrors b := by
  simp [countSystemErrors, List.filter_append]

theorem loadingsOf_append (a b : List Event) :
    loadingsOf (a ++ b) = loadingsOf a ++ loadingsOf b := by
  simp [loadingsOf, List.filterMap_append]

theorem isSystemErrorEvent_item (o : OItem) :
    isSystemErrorEvent (Event.item o) = isErrOItem o := by
  cases o <;> rfl

theorem countSystemErrors_map_item (l : List OItem) :
    countSystemErrors (l.map Event.item) = (l.filter isErrOItem).length := by
  induction l with
  | nil => rfl
  | cons o t ih =>
    simp only [List.map_cons, countSystemErrors, List.filter_cons,
      isSystemErrorEvent_item] at *
    cases h : isErrOItem o <;> simp [h, ih]

theorem filter_isErrOItem_map_forwarded (l : List RItem) :
    (l.map OItem.forwarded).filter isErrOItem = [] := by
  induction l with
  | nil => rfl
  | cons r t ih => simp [List.filter_cons, isErrOItem, ih]

theorem handleFunctionCall_ok_noErr (canceled : Bool) (call : FunctionCall)
    (parseOk : FnArgs → Bool) (execOutcome : Except String ExecOutcome)
    (outs : List OItem) :
    handleFunctionCall canceled call parseOk execOutcome = Except.ok outs →
    outs.filter isErrOItem = [] := by
  unfold handleFunctionCall
  intro h
  split at h
  · cases h
    rfl
  · split at h
    · cases h
      rfl
    · split at h
      · split at h
        · exact absurd h (by simp)
        · cases h
          simp [List.filter_cons, isErrOItem, filter_isErrOItem_map_forwarded]
      · cases h
        rfl

theorem countSystemErrors_cons (e : Event) (evs : List Event) :
    countSystemErrors (e :: evs) = countSystemErrors [e] + countSystemErrors evs := by
  have h : e :: evs = [e] ++ evs := rfl
  rw [h, countSystemErrors_append]

theorem processCalls_noErr (sched : Sched) (calls : List FunctionCall) (k : Nat) :
    countSystemErrors (processCalls sched calls k).1 = 0 := by
  induction calls generalizing k with
  | nil => rfl
  | cons c cs ih =>
    unfold processCalls
    split
    · rfl
    · split
      · rfl
      · rename_i outs heq
        rw [countSystemErrors_cons, countSystemErrors_append,
          countSystemErrors_map_item, handleFunctionCall_ok_noErr _ _ _ _ _ heq, ih]
        rfl

theorem mainDispatch_noErr (sched : Sched) (items : List OItem) :
    countSystemErrors (mainDispatch sched items).1 = 0 := by
  unfold mainDispatch
  split
  · split
    · rfl
    · exact processCalls_noErr sched _ 1
  · split
    · rfl
    · rename_i outs heq
      rw [countSystemErrors_map_item, handleFunctionCall_ok_noErr _ _ _ _ _ heq]
      rfl
  · rfl

theorem thinkingPrefix_noErr (response : OllamaChatCompletionResponse) :
    (thinkingPrefixItems response).filter isErrOItem = [] := by
  unfold thinkingPrefixItems
  split <;> rfl

theorem convert_noErr (response : OllamaChatCompletionResponse) :
    (convertOllamaResponseToResponseItem response).filter isErrOItem = [] := by
  unfold convertOllamaResponseToResponseItem
  split <;> rw [List.filter_append, thinkingPrefix_noErr] <;> rfl

theorem innerTryBody_errLeOne (sched : Sched) :
    countSystemErrors (innerTryBody sched) ≤ 1 := by
  unfold innerTryBody
  split
  · exact Nat.le_refl 1
  · split
    · exact Nat.zero_le 1
    · split
      · rename_i resp hflag e heq
        rw [countSystemErrors_append, countSystemErrors_append,
          countSystemErrors_map_item, convert_noErr, mainDispatch_noErr]
        exact Nat.le_refl 1
      · rename_i resp hflag heq
        rw [countSystemErrors_append, countSystemErrors_map_item,
          convert_noErr, mainDispatch_noErr]
        exact Nat.zero_le 1
      · rename_i resp hflag heq
        rw [countSystemErrors_append, countSystemErrors_append,
          countSystemErrors_map_item, convert_noErr, mainDispatch_noErr]
        exact Nat.zero_le 1

theorem echo_noErr (input : List RItem) :
    countSystemErrors
      ((input.filter isUserMessage).map fun i => Event.item (OItem.forwarded i)) = 0 := by
  induction input.filter isUserMessage with
  | nil => rfl
  | cons r t ih =>
    simp only [List.map_cons, countSystemErrors, List.filter_cons] at *
    simp [isSystemErrorEvent, ih]

/-- C7.  Every invocation of `run` resolves to the caller (never rejects);
the final loading-callback invocation it makes passes `false` on every
exit path — terminated, backend error, cancellation checkpoint, dispatch
exception, success — and the trace carries at most one error Output
Item. -/
theorem run_events_of_not_terminated (s : LoopState) (input : List RItem)
    (sched : Sched) (ht : s.terminated = false) :
    (run s input sched).events =
      (input.filter isUserMessage).map (fun i => Event.item (OItem.forwarded i))
        ++ [Event.loading true] ++ innerTryBody sched ++ [Event.loading false] := by
  unfold run runOuterBody
  rw [ht]
  simp

theorem run_events_of_terminated (s : LoopState) (input : List RItem)
    (sched : Sched) (ht : s.terminated = true) :
    (run s input sched).events =
      [Event.loading false, Event.item (OItem.systemError
        "⚠️  Unhandled error: OllamaAgentLoop has been terminated")] := by
  unfold run runOuterBody
  rw [ht]
  simp

theorem run_resolves_loading_false_last :
    ∀ (s : LoopState) (input : List RItem) (sched : Sched),
      (run s input sched).result = Except.ok () ∧
      (loadingsOf (run s input sched).events).getLast? = some false ∧
      countSystemErrors (run s input sched).events ≤ 1 := by
  intro s input sched
  refine ⟨?_, ?_, ?_⟩
  · unfold run
    cases h : runOuterBody s input sched <;> simp [h]
  · cases ht : s.terminated
    · rw [run_events_of_not_terminated s input sched ht, loadingsOf_append]
      have hone : loadingsOf [Event.loading false] = [false] := rfl
      rw [hone]
      exact List.getLast?_concat _
    · rw [run_events_of_terminated s input sched ht]
      rfl
  · cases ht : s.terminated
    · rw [run_events_of_not_terminated s input sched ht]
      rw [countSystemErrors_append, countSystemErrors_append, countSystemErrors_append]
      rw [echo_noErr]
      have h1 : countSystemErrors [Event.loading true] = 0 := rfl
      have h2 : countSystemErrors [Event.loading false] = 0 := rfl
      rw [h1, h2]
      have := innerTryBody_errLeOne sched
      omega
    · rw [run_events_of_terminated s input sched ht]
      exact Nat.le_refl 1

end Codex
